import Mathlib

/-!
# Verification of the inspeqtor core orchestration layer (`types.go`)

A shallow embedding of the entity/state-machine layer of the inspeqtor
monitoring agent: the `Entity` record shared by `Host` and `Service`, the
process-status state machine (`Transition`), service resolution against an
ordered list of init systems (`Resolve`), the per-cycle `Collect` control
flow, the rule engine (`Verify`) and `Restart`.

Go's mutation of the receiver is embedded as explicit state passing: each
operation takes the current state and returns the new state together with
the list of events delivered to the service's `EventHandler` action
(`emitter` calls in the source), and, where the claim needs it, a trace of
the external calls the operation performed.  External collaborators
(init systems, metrics capture, the liveness probe, rule checks) are
parameters supplying the results those calls would return.
-/

set_option autoImplicit false

namespace Inspeqtor

/-- Lifecycle states of `services.ProcessStatus.Status`:
`Unknown, Starting, Up, Down`. -/
inductive Status where
  | unknown
  | starting
  | up
  | down
deriving DecidableEq, Repr

/-- `services.ProcessStatus`: a pid and a lifecycle state.  Go's pid is an
`int`, embedded as `Int`. -/
structure ProcessStatus where
  pid : Int
  status : Status
deriving DecidableEq, Repr

/-- Modelled from the spec (the `services` package is outside `src/`):
`services.NewStatus()` produces the initial Process Status; the spec says
`Unknown is the only legal initial value before first resolution`. -/
def NewStatus : ProcessStatus := ⟨0, Status.unknown⟩

/-- The two event types the state machine emits:
`ProcessExists` and `ProcessDoesNotExist`. -/
inductive EventType where
  | processExists
  | processDoesNotExist
deriving DecidableEq, Repr

/-- Errors `InitSystem.LookupService` can return, after
`err.(*services.ServiceError)`: either `services.ErrServiceNotFound`
(this manager does not manage the service) or any other failure, carrying
its message. -/
inductive LookupErr where
  | notFound
  | other (msg : String)
deriving DecidableEq

/-- `services.InitSystem` as `Service.Resolve`/`Service.Collect` use it: a
name (for logging) and `LookupService : name → (ProcessStatus, error)`.
`Restart(name)` is only invoked by the fire-and-forget goroutine of
`Service.Restart`, which merely logs its outcome, so it is not part of the
record. -/
structure InitSystem where
  iname : String
  lookupService : String → Except LookupErr ProcessStatus

/-- The metrics store held by an `Entity` (`metrics.Storage`, outside
`src/`), kept abstract at its construction interface:
`metrics.NewHostStore(15)` and `metrics.NewProcessStore()`. -/
inductive MetricsStore where
  | hostStore (cycleSeconds : Nat)
  | processStore
deriving DecidableEq, Repr

/-- Events as `Entity.Verify` sees them: `Rule.Check` yields `*Event`
values.  The type and a tag stand for the event's identity (the `source`
pointer and payload of the Go struct are opaque to the rule engine). -/
structure Event where
  etype : EventType
  tag : Nat
deriving DecidableEq, Repr

/-- An `Action` as `Verify` dispatches it: `Trigger(event)` is a side
effect on an external collaborator, so an action is embedded as an
identity; a trigger call is recorded as the pair (action id, event). -/
structure Action where
  id : Nat
deriving DecidableEq, Repr

/-- A `Rule` as `Entity.Verify` consumes it.  `Rule.Check()` (defined
outside `src/`) inspects the entity's metrics and optionally yields an
event; it is embedded as the optional event this rule currently yields.
`actions` is the rule's configured ordered action list. -/
structure Rule where
  check : Option Event
  actions : List Action

/-- The `Entity` record: name, rules, metrics store and the parameters
map.  A Go `nil` map (readable, returning the zero value) is `none`;
a non-nil map is `some` association list. -/
structure Entity where
  name : String
  rules : List Rule
  metrics : MetricsStore
  parameters : Option (List (String × String))

/-- `Entity.Parameter(key)`: Go map indexing returns the zero value `""`
both when the map is `nil` and when the key is missing. -/
def Entity.Parameter (e : Entity) (key : String) : String :=
  match e.parameters with
  | none => ""
  | some ps =>
    match ps.find? (fun p => p.1 == key) with
    | none => ""
    | some p => p.2

/-- `Entity.Owner()` reads the `"owner"` parameter. -/
def Entity.Owner (e : Entity) : String :=
  e.Parameter "owner"

/-- `Host` wraps an `Entity` (no process, no manager). -/
structure Host where
  entity : Entity

/-- `NewHost()`: `&Host{&Entity{"localhost", nil, metrics.NewHostStore(15), nil}}`. -/
def NewHost : Host :=
  ⟨⟨"localhost", [], MetricsStore.hostStore 15, none⟩⟩

/-- The mutable state of a `Service`: the shared `Entity`, the current
`Process` status and the `Manager` binding (unset while resolution has not
succeeded).  The `EventHandler` action is the fixed sink of emitted
events; the event lists returned by the operations below record exactly
the `EventHandler.Trigger` calls made. -/
structure ServiceState where
  entity : Entity
  process : ProcessStatus
  manager : Option InitSystem

/-- `svc.Name()`. -/
def ServiceState.name (s : ServiceState) : String :=
  s.entity.name

/-- `NewService(name)`: fresh entity with a process store, initial status
from `services.NewStatus()`, no manager. -/
def NewService (name : String) : ServiceState :=
  ⟨⟨name, [], MetricsStore.processStore, none⟩, NewStatus, none⟩

/-- `Service.Transition(ps, emitter)`: record the old status, replace the
stored Process Status wholesale with `ps`, then emit per the
transition-to-event mapping: into `Up` emit `ProcessExists` unless the old
status was `Unknown`; into `Down` always emit `ProcessDoesNotExist`;
otherwise emit nothing.  Returns the new state and the emitted events in
order. -/
def Transition (s : ServiceState) (ps : ProcessStatus) :
    ServiceState × List EventType :=
  let oldst := s.process.status
  let s1 : ServiceState := { s with process := ps }
  match ps.status with
  | Status.up =>
    if oldst ≠ Status.unknown then
      (s1, [EventType.processExists])
    else
      (s1, [])
  | Status.down => (s1, [EventType.processDoesNotExist])
  | _ => (s1, [])

/-- The outcome of the loop body of `Service.Resolve`: the service state
and emitted events so far, the names of the init systems whose
`LookupService` was called (in call order), and, when a lookup failed with
a condition other than not-found, the message of the error the loop
returned early with. -/
structure LoopOut where
  state : ServiceState
  events : List EventType
  queried : List String
  aborted : Option String

/-- The `for _, sm := range mgrs` loop of `Service.Resolve`: skip `nil`
entries; on `ErrServiceNotFound` continue with the next entry; on any
other lookup error return that error immediately; on success set
`svc.Manager = sm`, apply `Transition` with the returned status and
`break`. -/
def resolveLoop (s : ServiceState) : List (Option InitSystem) → LoopOut
  | [] => ⟨s, [], [], none⟩
  | none :: rest => resolveLoop s rest
  | some sm :: rest =>
    match sm.lookupService s.name with
    | Except.error LookupErr.notFound =>
      let r := resolveLoop s rest
      { r with queried := sm.iname :: r.queried }
    | Except.error (LookupErr.other msg) => ⟨s, [], [sm.iname], some msg⟩
    | Except.ok ps =>
      let p := Transition { s with manager := some sm } ps
      ⟨p.1, p.2, [sm.iname], none⟩

/-- The full outcome of `Service.Resolve`: final state, emitted events,
trace of queried init-system names, and the returned error or success. -/
structure ResolveOut where
  state : ServiceState
  events : List EventType
  queried : List String
  result : Except String Unit

/-- `Service.Resolve(mgrs)`: run the lookup loop; a non-not-found lookup
error is surfaced as-is; otherwise, if `svc.Manager` is still `nil` the
descriptive could-not-find error is returned, else success. -/
def ServiceState.Resolve (s : ServiceState) (mgrs : List (Option InitSystem)) :
    ResolveOut :=
  let r := resolveLoop s mgrs
  match r.aborted with
  | some msg => ⟨r.state, r.events, r.queried, Except.error msg⟩
  | none =>
    match r.state.manager with
    | none =>
      ⟨r.state, r.events, r.queried,
        Except.error ("Could not find service " ++ s.name ++ ", did you misspell it?")⟩
    | some _ => ⟨r.state, r.events, r.queried, Except.ok ()⟩

/-- An entry of the manager list that `Resolve` passes over without
binding: a `nil` entry, or one whose lookup of this service name fails
with the not-found condition. -/
def skips (name : String) : Option InitSystem → Bool
  | none => true
  | some sm =>
    match sm.lookupService name with
    | Except.error LookupErr.notFound => true
    | _ => false

/-- Names of the non-`nil` entries of a manager list, in order: the
lookups a run over that list performs when every entry is skipped. -/
def queriedNames : List (Option InitSystem) → List String
  | [] => []
  | none :: rest => queriedNames rest
  | some sm :: rest => sm.iname :: queriedNames rest

/-- Results of the external calls one `Service.Collect` cycle can make:
`metrics.CollectProcess` for a pid (`none` = success, `some` = the error),
and `syscall.Kill(pid, 0)` (`true` = no error, the process exists). -/
structure CollectEnv where
  captureErr : Int → Option String
  probeAlive : Int → Bool

/-- The outcome of one `Collect` call: the final state, the emitted
events, and the arguments of the `completeCallback` invocations the
deferred call made (the service itself, observed at exit time). -/
structure CollectOut where
  state : ServiceState
  events : List EventType
  completions : List ServiceState

/-- Step 1 of `Service.Collect` (`verify service is Up and running`): if
the status is not `Up`, re-query the manager — on lookup error only log
(no state change), on success apply `Transition` with the returned
status; if the status is already `Up`, do nothing. -/
def collectStatusCheck (s : ServiceState) (mgr : InitSystem) :
    ServiceState × List EventType :=
  if s.process.status ≠ Status.up then
    match mgr.lookupService s.name with
    | Except.error _ => (s, ([] : List EventType))
    | Except.ok status => Transition s status
  else (s, [])

/-- Step 2 of `Service.Collect` (`capture process metrics`): if the status
is now `Up`, capture process metrics; on capture failure probe the pid
with `syscall.Kill(pid, 0)`, and if the probe errors apply `Transition` to
`{0, Down}`, else only log a warning (no state change). -/
def collectCapture (s : ServiceState) (env : CollectEnv) :
    ServiceState × List EventType :=
  if s.process.status = Status.up then
    match env.captureErr s.process.pid with
    | none => (s, [])
    | some _ =>
      if env.probeAlive s.process.pid then (s, [])
      else Transition s ⟨0, Status.down⟩
  else (s, [])

/-- `Service.Collect(completeCallback)`: `defer completeCallback(svc)`;
return early if `Manager` is `nil`; otherwise run the status check and
then the metrics-capture step on the resulting state.  The deferred
callback observes the service at exit, i.e. the final state. -/
def ServiceState.Collect (s : ServiceState) (env : CollectEnv) : CollectOut :=
  match s.manager with
  | none => ⟨s, [], [s]⟩
  | some mgr =>
    let p1 := collectStatusCheck s mgr
    let p2 := collectCapture p1.1 env
    ⟨p2.1, p1.2 ++ p2.2, [p2.1]⟩

/-- The outcome of `Host.Collect`: hosts hold no process state, so only
the callback invocations are observable; `metrics.CollectHost` failure is
only logged. -/
structure HostCollectOut where
  host : Host
  completions : List Host

/-- `Host.Collect(completeCallback)`: `defer completeCallback(h)`; capture
host metrics; on error only log a warning. -/
def Host.Collect (h : Host) (_captureErr : Option String) : HostCollectOut :=
  ⟨h, [h]⟩

/-- `Host.Resolve(mgrs)`: a no-op returning `nil`. -/
def Host.Resolve (_h : Host) (_mgrs : List (Option InitSystem)) :
    Except String Unit :=
  Except.ok ()

/-- The loop of `Entity.Verify` over a rule list: check each rule in
order; when a rule yields an event, append it to the result sequence and
trigger each of the rule's actions with that event, in action order.
Returns the accumulated events and the trace of `Action.Trigger` calls as
(action id, event) pairs, in call order. -/
def verifyRules : List Rule → List Event × List (Nat × Event)
  | [] => ([], [])
  | r :: rs =>
    match r.check with
    | none => verifyRules rs
    | some evt =>
      let rest := verifyRules rs
      (evt :: rest.1, r.actions.map (fun a => (a.id, evt)) ++ rest.2)

/-- `Entity.Verify()`: run the rule loop over `s.Rules()`. -/
def Entity.Verify (e : Entity) : List Event × List (Nat × Event) :=
  verifyRules e.rules

/-- The outcome of the synchronous part of `Service.Restart`. -/
structure RestartOut where
  state : ServiceState
  events : List EventType
  result : Except String Unit

/-- `Service.Restart()`: synchronously set `s.Process.Pid = 0` and
`s.Process.Status = Starting` and return `nil`.  The detached goroutine
then calls `s.Manager.Restart(s.Name())` and only logs its outcome;
`asyncOutcome` is that eventual result, on which the synchronous part
does not depend. -/
def ServiceState.Restart (s : ServiceState) (_asyncOutcome : Except String Unit) :
    RestartOut :=
  ⟨{ s with process := ⟨0, Status.starting⟩ }, [], Except.ok ()⟩

/-- Helper: the state returned by `Transition` is always the input state
with the Process Status replaced by the argument (the emission decision
never changes the stored state). -/
theorem transition_fst (s : ServiceState) (ps : ProcessStatus) :
    (Transition s ps).1 = { s with process := ps } := by
  cases ps with
  | mk pid st =>
    cases st
    · rfl
    · rfl
    · by_cases h : s.process.status = Status.unknown <;> simp [Transition, h]
    · rfl

/-- Helper: a non-`nil` skipped entry is exactly one whose lookup fails
with the not-found condition. -/
theorem skips_some {name : String} {sm : InitSystem}
    (h : skips name (some sm) = true) :
    sm.lookupService name = Except.error LookupErr.notFound := by
  cases hl : sm.lookupService name with
  | ok ps => simp [skips, hl] at h
  | error e =>
    cases e with
    | notFound => rfl
    | other msg => simp [skips, hl] at h

/-- Helper: a prefix of skipped entries only contributes its non-`nil`
names to the query trace; state, events and abort status come from the
rest of the list. -/
theorem resolveLoop_skips (s : ServiceState) (pre rest : List (Option InitSystem))
    (h : ∀ e ∈ pre, skips s.name e = true) :
    resolveLoop s (pre ++ rest) =
      { resolveLoop s rest with
          queried := queriedNames pre ++ (resolveLoop s rest).queried } := by
  induction pre with
  | nil => rfl
  | cons e pre ih =>
    have htail : ∀ x ∈ pre, skips s.name x = true :=
      fun x hx => h x (List.mem_cons_of_mem _ hx)
    cases e with
    | none => exact ih htail
    | some sm =>
      have hs := skips_some (h (some sm) (List.mem_cons_self _ _))
      simp [resolveLoop, queriedNames, hs, ih htail]

/-- C2: `Service.Resolve` skips `nil` entries and entries whose lookup
fails with the not-found condition; at the first init system whose lookup
succeeds it binds `Manager` to that init system, applies `Transition` with
the returned Process Status, queries no later init system (the run equals
the run on the list truncated right after the match) and returns
success. -/
theorem resolve_first_match_wins (s : ServiceState)
    (pre post : List (Option InitSystem)) (m : InitSystem) (ps : ProcessStatus)
    (hpre : ∀ e ∈ pre, skips s.name e = true)
    (hm : m.lookupService s.name = Except.ok ps) :
    (s.Resolve (pre ++ some m :: post)).state.manager = some m ∧
    (s.Resolve (pre ++ some m :: post)).state =
      { s with process := ps, manager := some m } ∧
    (s.Resolve (pre ++ some m :: post)).events =
      (Transition { s with manager := some m } ps).2 ∧
    (s.Resolve (pre ++ some m :: post)).result = Except.ok () ∧
    (s.Resolve (pre ++ some m :: post)).queried = queriedNames pre ++ [m.iname] ∧
    s.Resolve (pre ++ some m :: post) = s.Resolve (pre ++ [some m]) := by
  have hloop : ∀ tail, resolveLoop s (some m :: tail) =
      ⟨(Transition { s with manager := some m } ps).1,
       (Transition { s with manager := some m } ps).2, [m.iname], none⟩ := by
    intro tail
    simp [resolveLoop, hm]
  have h1 := resolveLoop_skips s pre (some m :: post) hpre
  have h2 := resolveLoop_skips s pre [some m] hpre
  rw [hloop] at h1
  rw [hloop] at h2
  simp [ServiceState.Resolve, h1, h2, transition_fst]

/-- Witness for C2: a manager list with a `nil` entry, a not-found entry,
a matching entry and a later entry; resolution binds the matching entry,
returns success, and queried exactly the usable entries up to and
including the match. -/
theorem resolve_first_match_wins_witness :
    ((NewService "redis").Resolve
        [none, some ⟨"sysv", fun _ => Except.error LookupErr.notFound⟩,
         some ⟨"systemd", fun _ => Except.ok ⟨42, Status.up⟩⟩,
         some ⟨"upstart", fun _ => Except.ok ⟨7, Status.up⟩⟩]).result =
      Except.ok () ∧
    ((NewService "redis").Resolve
        [none, some ⟨"sysv", fun _ => Except.error LookupErr.notFound⟩,
         some ⟨"systemd", fun _ => Except.ok ⟨42, Status.up⟩⟩,
         some ⟨"upstart", fun _ => Except.ok ⟨7, Status.up⟩⟩]).state.manager =
      some ⟨"systemd", fun _ => Except.ok ⟨42, Status.up⟩⟩ ∧
    ((NewService "redis").Resolve
        [none, some ⟨"sysv", fun _ => Except.error LookupErr.notFound⟩,
         some ⟨"systemd", fun _ => Except.ok ⟨42, Status.up⟩⟩,
         some ⟨"upstart", fun _ => Except.ok ⟨7, Status.up⟩⟩]).queried =
      ["sysv", "systemd"] := by
  have h := resolve_first_match_wins (NewService "redis")
    [none, some ⟨"sysv", fun _ => Except.error LookupErr.notFound⟩]
    [some ⟨"upstart", fun _ => Except.ok ⟨7, Status.up⟩⟩]
    ⟨"systemd", fun _ => Except.ok ⟨42, Status.up⟩⟩ ⟨42, Status.up⟩
    (by decide) rfl
  exact ⟨h.2.2.2.1, h.1, h.2.2.2.2.1⟩

/-- C1: for every `Service.Transition(newStatus, emit)` call: into `Up`
from `Unknown` no event is emitted; into `Up` from `Starting`, `Down` or
`Up` exactly one `ProcessExists` event is emitted; into `Starting` no
event is emitted; and in every case the stored Process Status is replaced
by `newStatus`. -/
theorem transition_event_mapping (s : ServiceState) (ps : ProcessStatus) :
    (ps.status = Status.up → s.process.status = Status.unknown →
      (Transition s ps).2 = []) ∧
    (ps.status = Status.up → s.process.status ≠ Status.unknown →
      (Transition s ps).2 = [EventType.processExists]) ∧
    (ps.status = Status.starting → (Transition s ps).2 = []) ∧
    (Transition s ps).1.process = ps := by
  refine ⟨?_, ?_, ?_, ?_⟩
  · intro hup hold
    simp [Transition, hup, hold]
  · intro hup hold
    simp [Transition, hup, hold]
  · intro hst
    simp [Transition, hst]
  · cases ps with
    | mk pid st =>
      cases st
      · rfl
      · rfl
      · by_cases h : s.process.status = Status.unknown <;> simp [Transition, h]
      · rfl

/-- Witness for C1: a concrete `Starting → Up` transition emits exactly one
`ProcessExists`, and the stored status is replaced. -/
theorem transition_event_mapping_witness :
    (Transition ⟨⟨"redis", [], MetricsStore.processStore, none⟩,
        ⟨0, Status.starting⟩, none⟩ ⟨42, Status.up⟩).2 =
      [EventType.processExists] ∧
    (Transition ⟨⟨"redis", [], MetricsStore.processStore, none⟩,
        ⟨0, Status.starting⟩, none⟩ ⟨42, Status.up⟩).1.process =
      ⟨42, Status.up⟩ := by
  have h := transition_event_mapping
    ⟨⟨"redis", [], MetricsStore.processStore, none⟩, ⟨0, Status.starting⟩, none⟩
    ⟨42, Status.up⟩
  exact ⟨h.2.1 rfl (by decide), h.2.2.2⟩

/-- Counterexample for C4 as stated: `Transition` replaces the stored
Process Status wholesale with `newStatus`, so a `Down` transition called
with a nonzero pid leaves that pid in place.  At the concrete state
`{pid 3, Up}` and `newStatus = {pid 7, Down}`, the stored pid after the
call is `7`, not `0`. -/
theorem transition_down_pid_counterexample :
    ¬ ((Transition ⟨⟨"redis", [], MetricsStore.processStore, none⟩,
          ⟨3, Status.up⟩, none⟩ ⟨7, Status.down⟩).1.process.pid = 0) := by
  decide

/-- C4 amended: for every `Service.Transition` call with
`newStatus.status == Down`, regardless of the old status, exactly one
`ProcessDoesNotExist` event is emitted, and the stored Process Status
becomes `newStatus` wholesale — so the stored pid equals `newStatus.pid`,
and is `0` exactly when the caller passes pid `0`, as the process-death
path of `Collect` does. -/
theorem transition_down_emits (s : ServiceState) (ps : ProcessStatus)
    (hdown : ps.status = Status.down) :
    (Transition s ps).2 = [EventType.processDoesNotExist] ∧
    (Transition s ps).1.process = ps := by
  cases ps with
  | mk pid st =>
    cases st
    · cases hdown
    · cases hdown
    · cases hdown
    · exact ⟨rfl, rfl⟩

/-- Witness for the amended C4: a concrete `Up → Down` transition with pid
reset to 0 emits exactly one `ProcessDoesNotExist` and stores `{0, Down}`. -/
theorem transition_down_emits_witness :
    (Transition ⟨⟨"redis", [], MetricsStore.processStore, none⟩,
        ⟨3, Status.up⟩, none⟩ ⟨0, Status.down⟩).2 =
      [EventType.processDoesNotExist] ∧
    (Transition ⟨⟨"redis", [], MetricsStore.processStore, none⟩,
        ⟨3, Status.up⟩, none⟩ ⟨0, Status.down⟩).1.process =
      ⟨0, Status.down⟩ :=
  transition_down_emits _ _ rfl

/-- Helper: the status-check step never touches the `Manager` binding. -/
theorem collectStatusCheck_manager (s : ServiceState) (mgr : InitSystem) :
    (collectStatusCheck s mgr).1.manager = s.manager := by
  unfold collectStatusCheck
  split
  · cases hl : mgr.lookupService s.name with
    | error e => rfl
    | ok ps => rw [transition_fst]
  · rfl

/-- Helper: the capture step never touches the `Manager` binding. -/
theorem collectCapture_manager (s : ServiceState) (env : CollectEnv) :
    (collectCapture s env).1.manager = s.manager := by
  unfold collectCapture
  split
  · cases hc : env.captureErr s.process.pid with
    | none => rfl
    | some msg =>
      dsimp only
      split
      · rfl
      · rw [transition_fst]
  · rfl

/-- C5: `Service.Resolve` fails in exactly two ways.  A lookup failure
with any condition other than not-found aborts immediately: that error
is returned, the state (in particular the unset `Manager`) is untouched,
no event is emitted and no later init system is queried.  If every entry
is `nil` or reports not-found, the descriptive could-not-find error is
returned with the state untouched, and every future `Collect` on the
still-unresolved service returns early having done nothing. -/
theorem resolve_failure_modes :
    (∀ (s : ServiceState) (pre post : List (Option InitSystem))
        (m : InitSystem) (msg : String),
      (∀ e ∈ pre, skips s.name e = true) →
      m.lookupService s.name = Except.error (LookupErr.other msg) →
      (s.Resolve (pre ++ some m :: post)).result = Except.error msg ∧
      (s.Resolve (pre ++ some m :: post)).state = s ∧
      (s.Resolve (pre ++ some m :: post)).events = [] ∧
      s.Resolve (pre ++ some m :: post) = s.Resolve (pre ++ [some m])) ∧
    (∀ (s : ServiceState) (mgrs : List (Option InitSystem)),
      s.manager = none →
      (∀ e ∈ mgrs, skips s.name e = true) →
      (s.Resolve mgrs).result =
        Except.error ("Could not find service " ++ s.name ++ ", did you misspell it?") ∧
      (s.Resolve mgrs).state = s ∧
      (∀ env : CollectEnv, s.Collect env = ⟨s, [], [s]⟩)) := by
  constructor
  · intro s pre post m msg hpre hm
    have hloop : ∀ tail, resolveLoop s (some m :: tail) =
        ⟨s, [], [m.iname], some msg⟩ := by
      intro tail
      simp [resolveLoop, hm]
    have h1 := resolveLoop_skips s pre (some m :: post) hpre
    have h2 := resolveLoop_skips s pre [some m] hpre
    rw [hloop] at h1
    rw [hloop] at h2
    simp [ServiceState.Resolve, h1, h2]
  · intro s mgrs hnone hall
    have h1 := resolveLoop_skips s mgrs [] hall
    rw [List.append_nil] at h1
    refine ⟨?_, ?_, ?_⟩
    · simp [ServiceState.Resolve, h1, resolveLoop, hnone]
    · simp [ServiceState.Resolve, h1, resolveLoop, hnone]
    · intro env
      simp [ServiceState.Collect, hnone]

/-- Witness for C5: the hard-failure mode on `[not-found, hard error,
healthy]` (the error surfaces, nothing is bound, the third manager is
never queried), and the not-found-everywhere mode on two not-found
managers (descriptive error, manager still unset, `Collect` a no-op). -/
theorem resolve_failure_modes_witness :
    ((NewService "redis").Resolve
        [some ⟨"sysv", fun _ => Except.error LookupErr.notFound⟩,
         some ⟨"systemd", fun _ => Except.error (LookupErr.other "dbus down")⟩,
         some ⟨"upstart", fun _ => Except.ok ⟨7, Status.up⟩⟩]).result =
      Except.error "dbus down" ∧
    ((NewService "redis").Resolve
        [some ⟨"sysv", fun _ => Except.error LookupErr.notFound⟩,
         some ⟨"systemd", fun _ => Except.error (LookupErr.other "dbus down")⟩,
         some ⟨"upstart", fun _ => Except.ok ⟨7, Status.up⟩⟩]).state =
      NewService "redis" ∧
    ((NewService "redis").Resolve
        [some ⟨"sysv", fun _ => Except.error LookupErr.notFound⟩,
         some ⟨"mystery", fun _ => Except.error LookupErr.notFound⟩]).result =
      Except.error "Could not find service redis, did you misspell it?" ∧
    (NewService "redis").Collect ⟨fun _ => none, fun _ => true⟩ =
      ⟨NewService "redis", [], [NewService "redis"]⟩ := by
  have ha := resolve_failure_modes.1 (NewService "redis")
    [some ⟨"sysv", fun _ => Except.error LookupErr.notFound⟩]
    [some ⟨"upstart", fun _ => Except.ok ⟨7, Status.up⟩⟩]
    ⟨"systemd", fun _ => Except.error (LookupErr.other "dbus down")⟩ "dbus down"
    (by decide) rfl
  have hb := resolve_failure_modes.2 (NewService "redis")
    [some ⟨"sysv", fun _ => Except.error LookupErr.notFound⟩,
     some ⟨"mystery", fun _ => Except.error LookupErr.notFound⟩]
    rfl (by decide)
  exact ⟨ha.1, ha.2.1, hb.1, hb.2.2 ⟨fun _ => none, fun _ => true⟩⟩

/-- Counterexample for C9 as stated: `Service.Resolve` has no guard
against re-running after a successful binding.  On a service already
bound to init system `A`, a further `Resolve` call against a list whose
first entry `B` recognizes the service reassigns `Manager` to `B`. -/
theorem manager_rebound_counterexample :
    ((ServiceState.mk ⟨"redis", [], MetricsStore.processStore, none⟩
        ⟨1, Status.up⟩
        (some ⟨"A", fun _ => Except.ok ⟨1, Status.up⟩⟩)).Resolve
      [some ⟨"B", fun _ => Except.ok ⟨2, Status.up⟩⟩]).state.manager ≠
      some ⟨"A", fun _ => Except.ok ⟨1, Status.up⟩⟩ := by
  intro h
  have hB : ((ServiceState.mk ⟨"redis", [], MetricsStore.processStore, none⟩
        ⟨1, Status.up⟩
        (some ⟨"A", fun _ => Except.ok ⟨1, Status.up⟩⟩)).Resolve
      [some ⟨"B", fun _ => Except.ok ⟨2, Status.up⟩⟩]).state.manager =
      some ⟨"B", fun _ => Except.ok ⟨2, Status.up⟩⟩ := rfl
  rw [hB] at h
  have hnames : ("B" : String) = "A" :=
    congrArg (fun o => (Option.map InitSystem.iname o).getD "") h
  exact absurd hnames (by decide)

/-- C9 amended: among the per-cycle operations, `Collect`, `Transition`
and `Restart` never touch the `Manager` binding (and `Verify` reads only
the rules, not the service state at all); `Resolve` is the sole operation
that assigns `Manager` and is invoked once at startup, so the service
stays bound to the first init system that recognized it — but a repeated
`Resolve` call after a successful binding could rebind. -/
theorem manager_preserved_by_cycle_ops :
    (∀ (s : ServiceState) (env : CollectEnv),
      (s.Collect env).state.manager = s.manager) ∧
    (∀ (s : ServiceState) (ps : ProcessStatus),
      (Transition s ps).1.manager = s.manager) ∧
    (∀ (s : ServiceState) (o : Except String Unit),
      (s.Restart o).state.manager = s.manager) := by
  refine ⟨?_, ?_, ?_⟩
  · intro s env
    unfold ServiceState.Collect
    cases hm : s.manager with
    | none => exact hm
    | some mgr =>
      dsimp only
      rw [collectCapture_manager, collectStatusCheck_manager, hm]
  · intro s ps
    rw [transition_fst]
  · intro s o
    rfl

/-- C3: every `Collect` invocation, on a Service or on the Host, invokes
the completion callback exactly once, on every exit path (the early
return when `Manager` is unset, every lookup/capture/probe branch, and
normal completion), and the callback receives the Checkable itself (whose
state at callback time is the final state). -/
theorem collect_calls_completion_once :
    (∀ (s : ServiceState) (env : CollectEnv),
      (s.Collect env).completions = [(s.Collect env).state]) ∧
    (∀ (h : Host) (captureResult : Option String),
      (h.Collect captureResult).completions = [(h.Collect captureResult).host]) := by
  constructor
  · intro s env
    unfold ServiceState.Collect
    cases s.manager <;> rfl
  · intro h captureResult
    rfl

/-- C6: in a `Service.Collect` cycle whose status is `Up` at the capture
step and whose metrics capture fails: if the liveness probe errors (the
process is gone), `Transition` to `{0, Down}` is applied, firing exactly
one `ProcessDoesNotExist`; if the probe succeeds (the process is alive),
the Process Status is left unchanged and no event fires. -/
theorem collect_capture_failure (s : ServiceState) (env : CollectEnv)
    (m : InitSystem) (msg : String)
    (hm : s.manager = some m) (hup : s.process.status = Status.up)
    (hcap : env.captureErr s.process.pid = some msg) :
    (env.probeAlive s.process.pid = false →
      (s.Collect env).state = { s with process := ⟨0, Status.down⟩ } ∧
      (s.Collect env).events = [EventType.processDoesNotExist]) ∧
    (env.probeAlive s.process.pid = true →
      (s.Collect env).state = s ∧ (s.Collect env).events = []) := by
  have hsc : collectStatusCheck s m = (s, []) := by
    unfold collectStatusCheck
    simp [hup]
  constructor
  · intro hprobe
    constructor <;>
      simp [ServiceState.Collect, hm, hsc, collectCapture, hup, hcap, hprobe,
        Transition]
  · intro hprobe
    constructor <;>
      simp [ServiceState.Collect, hm, hsc, collectCapture, hup, hcap, hprobe]

/-- Witness for C6: a service Up with pid 9, capture failing; with a dead
probe the cycle transitions to `{0, Down}` and fires one
`ProcessDoesNotExist`; with a live probe it changes nothing. -/
theorem collect_capture_failure_witness :
    ((ServiceState.mk ⟨"redis", [], MetricsStore.processStore, none⟩
        ⟨9, Status.up⟩ (some ⟨"systemd", fun _ => Except.ok ⟨9, Status.up⟩⟩)).Collect
      ⟨fun _ => some "no such pid", fun _ => false⟩).state.process =
      ⟨0, Status.down⟩ ∧
    ((ServiceState.mk ⟨"redis", [], MetricsStore.processStore, none⟩
        ⟨9, Status.up⟩ (some ⟨"systemd", fun _ => Except.ok ⟨9, Status.up⟩⟩)).Collect
      ⟨fun _ => some "no such pid", fun _ => false⟩).events =
      [EventType.processDoesNotExist] ∧
    ((ServiceState.mk ⟨"redis", [], MetricsStore.processStore, none⟩
        ⟨9, Status.up⟩ (some ⟨"systemd", fun _ => Except.ok ⟨9, Status.up⟩⟩)).Collect
      ⟨fun _ => some "io error", fun _ => true⟩).events = [] := by
  have hdead := (collect_capture_failure
    (ServiceState.mk ⟨"redis", [], MetricsStore.processStore, none⟩
      ⟨9, Status.up⟩ (some ⟨"systemd", fun _ => Except.ok ⟨9, Status.up⟩⟩))
    ⟨fun _ => some "no such pid", fun _ => false⟩
    ⟨"systemd", fun _ => Except.ok ⟨9, Status.up⟩⟩ "no such pid"
    rfl rfl rfl).1 rfl
  have halive := (collect_capture_failure
    (ServiceState.mk ⟨"redis", [], MetricsStore.processStore, none⟩
      ⟨9, Status.up⟩ (some ⟨"systemd", fun _ => Except.ok ⟨9, Status.up⟩⟩))
    ⟨fun _ => some "io error", fun _ => true⟩
    ⟨"systemd", fun _ => Except.ok ⟨9, Status.up⟩⟩ "io error"
    rfl rfl rfl).2 rfl
  exact ⟨congrArg ServiceState.process hdead.1, hdead.2, halive.2⟩

/-- C7: `Verify` checks each rule in order; the returned sequence is
exactly the yielded events in rule order, and the `Action.Trigger` trace
is, rule by rule in order, every action of each yielding rule applied to
that rule's event in the configured action order (rules yielding no event
trigger nothing). -/
theorem verify_rule_engine (e : Entity) :
    (e.Verify).1 = e.rules.filterMap Rule.check ∧
    (e.Verify).2 = e.rules.flatMap (fun r =>
      match r.check with
      | some evt => r.actions.map (fun a => (a.id, evt))
      | none => []) := by
  unfold Entity.Verify
  induction e.rules with
  | nil => exact ⟨rfl, rfl⟩
  | cons r rs ih =>
    cases hc : r.check with
    | none =>
      simp [verifyRules, hc, ih.1, ih.2]
    | some evt =>
      simp [verifyRules, hc, ih.1, ih.2]

/-- C8: the synchronous part of `Service.Restart` sets pid to 0 and
status to `Starting`, changes nothing else, fires no events and returns
success — identically for every outcome of the detached manager restart
call, whose result the caller never sees. -/
theorem restart_synchronous (s : ServiceState) (o o2 : Except String Unit) :
    (s.Restart o).state = { s with process := ⟨0, Status.starting⟩ } ∧
    (s.Restart o).events = [] ∧
    (s.Restart o).result = Except.ok () ∧
    s.Restart o = s.Restart o2 :=
  ⟨rfl, rfl, rfl, rfl⟩

/-- C10: the `Entity` accessors are total: with a `nil` parameters map or
a missing key, `Parameter` returns the empty string, and the
parameterless `NewHost` has `Owner() == ""`. -/
theorem parameter_totality :
    (∀ (e : Entity) (k : String), e.parameters = none → e.Parameter k = "") ∧
    (∀ (e : Entity) (k : String) (ps : List (String × String)),
      e.parameters = some ps → (∀ p ∈ ps, p.1 ≠ k) → e.Parameter k = "") ∧
    NewHost.entity.Owner = "" := by
  refine ⟨?_, ?_, rfl⟩
  · intro e k h
    simp [Entity.Parameter, h]
  · intro e k ps h hmiss
    have hfind : ps.find? (fun p => p.1 == k) = none := by
      rw [List.find?_eq_none]
      intro p hp
      simpa using hmiss p hp
    simp [Entity.Parameter, h, hfind]

/-- Witness for C10: an entity with a `nil` map and one with a map
lacking the key both read `""`; `NewHost` has owner `""`. -/
theorem parameter_totality_witness :
    (Entity.mk "db" [] MetricsStore.processStore none).Parameter "owner" = "" ∧
    (Entity.mk "db" [] MetricsStore.processStore
        (some [("group", "ops")])).Parameter "owner" = "" ∧
    NewHost.entity.Owner = "" := by
  refine ⟨parameter_totality.1 _ _ rfl,
    parameter_totality.2.1 _ "owner" [("group", "ops")] rfl ?_,
    parameter_totality.2.2⟩
  decide

end Inspeqtor
